import Mathlib

/-!
Verification of the `Dialog` view (`src/view/dialog.rs`): box-model geometry,
minimum-size computation, layout, and the keyboard-focus state machine.

The dialog source is embedded directly.  The helper types it uses
(`Vec2`, `Margins`, `SizeRequest`, `EventResult`, the content widget and the
`Button` widget) live in other files of the repository that are not part of
the provided sources; they are modelled from the specification, as noted on
each definition.
-/

/-- Modelled from the spec: `Vector2` (`vec.rs` is not among the provided
sources) is a pair of non-negative integers representing a size or offset in
character cells; its arithmetic "must saturate or be checked" (§3), so
subtraction is truncated at zero. -/
structure Vec2 where
  x : Nat
  y : Nat
deriving DecidableEq, Repr

def Vec2.add (a b : Vec2) : Vec2 := ⟨a.x + b.x, a.y + b.y⟩

instance : Add Vec2 := ⟨Vec2.add⟩

def Vec2.sub (a b : Vec2) : Vec2 := ⟨a.x - b.x, a.y - b.y⟩

instance : Sub Vec2 := ⟨Vec2.sub⟩

theorem Vec2.add_x (a b : Vec2) : (a + b).x = a.x + b.x := rfl

theorem Vec2.add_y (a b : Vec2) : (a + b).y = a.y + b.y := rfl

theorem Vec2.sub_x (a b : Vec2) : (a - b).x = a.x - b.x := rfl

theorem Vec2.sub_y (a b : Vec2) : (a - b).y = a.y - b.y := rfl

/-- Modelled from the spec: `Margins` (not among the provided sources) is four
non-negative edge widths left/right/top/bottom (§3), with the combinators the
dialog uses: `combined` (sum per axis), `top_left` and `bot_right` corners. -/
structure Margins where
  left : Nat
  right : Nat
  top : Nat
  bot : Nat
deriving DecidableEq, Repr

def Margins.new (l r t b : Nat) : Margins := ⟨l, r, t, b⟩

def Margins.combined (m : Margins) : Vec2 := ⟨m.left + m.right, m.top + m.bot⟩

def Margins.top_left (m : Margins) : Vec2 := ⟨m.left, m.top⟩

def Margins.bot_right (m : Margins) : Vec2 := ⟨m.right, m.bot⟩

/-- Modelled from the spec: a per-axis size constraint, "exactly N",
"at most N", or "unbounded" (§3). -/
inductive DimensionRequest where
  | Fixed (n : Nat)
  | AtMost (n : Nat)
  | Unknown
deriving DecidableEq, Repr

/-- Modelled from the spec: reducing a constraint by an offset, used when a
parent reserves part of the offered space for itself (§4.3 step 1). -/
def DimensionRequest.reduced (r : DimensionRequest) (offset : Nat) : DimensionRequest :=
  match r with
  | Fixed n => Fixed (n - offset)
  | AtMost n => AtMost (n - offset)
  | Unknown => Unknown

/-- Modelled from the spec: a pair of per-axis constraints offered to a child
during size negotiation (§3). -/
structure SizeRequest where
  w : DimensionRequest
  h : DimensionRequest
deriving DecidableEq, Repr

def SizeRequest.reduced (req : SizeRequest) (size : Vec2) : SizeRequest :=
  ⟨req.w.reduced size.x, req.h.reduced size.y⟩

/-- Modelled from the spec: the result of offering a key to a widget, either
consumed (with an optional follow-up callback, kept opaque here) or ignored
so that an ancestor may reinterpret it (§4.1). -/
inductive EventResult where
  | Consumed (cb : Option Unit)
  | Ignored
deriving DecidableEq, Repr

/-- Key codes from the external ncurses bindings, as used by the dialog. -/
def KEY_DOWN : Int := 258

def KEY_UP : Int := 259

def KEY_LEFT : Int := 260

def KEY_RIGHT : Int := 261

/-- Activation key of a button (the only key a button consumes by itself). -/
def KEY_ENTER : Int := 10

/-- Modelled from the spec: the content is an arbitrary widget behind the
widget contract (§4.1); its concrete type is unknown to the dialog.  It is
captured by its observable behaviour: minimum size as a function of the
request, whether it accepts focus, and its key handler. -/
structure ContentView where
  get_min_size : SizeRequest → Vec2
  take_focus : Bool
  on_key_event : Int → EventResult

/-- Modelled from the spec: the `Button` widget (not among the provided
sources) is an opaque widget with a label and a callback (§3), packed in the
row as a fixed-size child (§4.2); it is kept in a size-caching wrapper.  Its
minimum size is therefore a constant, independent of the request. -/
structure ButtonView where
  min_size : Vec2
deriving DecidableEq, Repr

def ButtonView.get_min_size (b : ButtonView) (_req : SizeRequest) : Vec2 :=
  b.min_size

/-- Modelled from the spec: a button consumes its own activation key,
invoking its callback, and ignores every other key, letting the dialog
reinterpret movement keys (§4.6, §6). -/
def ButtonView.on_key_event (_b : ButtonView) (ch : Int) : EventResult :=
  if ch = KEY_ENTER then EventResult.Consumed (some ()) else EventResult.Ignored

/-- Focus state of the dialog, from `enum Focus` in `dialog.rs`. -/
inductive Focus where
  | Content
  | Button (i : Nat)
deriving DecidableEq, Repr

/-- The dialog, from `struct Dialog` in `dialog.rs`: a content widget, a list
of buttons, a title, padding and border margins, and the focus state. -/
structure Dialog where
  title : String
  content : ContentView
  buttons : List ButtonView
  padding : Margins
  borders : Margins
  focus : Focus

/-- Constructor `Dialog::new`: empty title, no buttons, focus on the content,
padding `(1,1,0,0)` and borders `(1,1,1,1)`. -/
def Dialog.new (content : ContentView) : Dialog :=
  { title := ""
    content := content
    buttons := []
    padding := Margins.new 1 1 0 0
    borders := Margins.new 1 1 1 1
    focus := Focus.Content }

/-- Builder `Dialog::button`: appends a button to the row. -/
def Dialog.button (d : Dialog) (b : ButtonView) : Dialog :=
  { d with buttons := d.buttons ++ [b] }

/-- Builder `Dialog::title`: sets the title string. -/
def Dialog.with_title (d : Dialog) (t : String) : Dialog :=
  { d with title := t }

/-- The button-row accumulation loop inside `Dialog::get_min_size`
(`dialog.rs` lines 119-124): width accumulates each button's minimum width
plus one, height is the running maximum of each button's minimum height plus
one. -/
def buttonsMinSize (buttons : List ButtonView) (req : SizeRequest) : Vec2 :=
  buttons.foldl
    (fun acc b =>
      let s := b.get_min_size req
      ⟨acc.x + s.x + 1, max acc.y (s.y + 1)⟩)
    ⟨0, 0⟩

/-- `Dialog::get_min_size` (`dialog.rs` lines 114-138): content is measured
under the request reduced by padding plus borders, the button row under the
unreduced request; the inner size takes the maximum width and the summed
height, padding and borders are added back, and a non-empty title forces the
width up to `title.len() + 6`. -/
def Dialog.get_min_size (d : Dialog) (req : SizeRequest) : Vec2 :=
  let content_req := req.reduced (d.padding.combined + d.borders.combined)
  let content_size := d.content.get_min_size content_req
  let buttons_size := buttonsMinSize d.buttons req
  let inner_size :=
    Vec2.mk (max content_size.x buttons_size.x) (content_size.y + buttons_size.y)
      + d.padding.combined + d.borders.combined
  if d.title.length > 0 then
    ⟨max inner_size.x (d.title.length + 6), inner_size.y⟩
  else
    inner_size

/-- The button loop inside `Dialog::layout` (`dialog.rs` lines 149-154):
walking the buttons in reverse, each is laid out at its own minimum size and
the row height is the running maximum of minimum height plus one. -/
def buttonsLayoutHeight (buttons : List ButtonView) (req : SizeRequest) : Nat :=
  buttons.reverse.foldl (fun h b => max h ((b.get_min_size req).y + 1)) 0

/-- `Dialog::layout` (`dialog.rs` lines 140-158).  Layout mutates the
children by handing each its size; the observable outcome is the size given
to the content and the size given to each button, returned here as a pair.
Borders plus padding are subtracted from the offered size, an at-most request
is built from the remainder, every button receives its own minimum size under
that request, and the content receives the remainder minus the button-row
height. -/
def Dialog.layout (d : Dialog) (size : Vec2) : Vec2 × List Vec2 :=
  let inner := size - (d.borders.combined + d.padding.combined)
  let req : SizeRequest := ⟨DimensionRequest.AtMost inner.x, DimensionRequest.AtMost inner.y⟩
  let buttons_height := buttonsLayoutHeight d.buttons req
  (inner - Vec2.mk 0 buttons_height, d.buttons.map (fun b => b.get_min_size req))

/-- `Dialog::on_key_event` (`dialog.rs` lines 160-200).  Returns the event
result together with the updated dialog.  The `none` branch of the index
lookup corresponds to `self.buttons[i]` with `i` out of range, which the
Rust code would only reach from a state the focus invariant rules out. -/
def Dialog.on_key_event (d : Dialog) (ch : Int) : EventResult × Dialog :=
  match d.focus with
  | Focus.Content =>
    match d.content.on_key_event ch with
    | EventResult.Ignored =>
      if d.buttons.isEmpty then
        (EventResult.Ignored, d)
      else if ch = KEY_DOWN then
        (EventResult.Consumed none, { d with focus := Focus.Button 0 })
      else
        (EventResult.Ignored, d)
    | res => (res, d)
  | Focus.Button i =>
    match d.buttons[i]? with
    | none => (EventResult.Ignored, d)
    | some b =>
      match b.on_key_event ch with
      | EventResult.Ignored =>
        if ch = KEY_UP then
          if d.content.take_focus then
            (EventResult.Consumed none, { d with focus := Focus.Content })
          else
            (EventResult.Ignored, d)
        else if ch = KEY_RIGHT then
          if i + 1 < d.buttons.length then
            (EventResult.Consumed none, { d with focus := Focus.Button (i + 1) })
          else
            (EventResult.Ignored, d)
        else if ch = KEY_LEFT then
          if i > 0 then
            (EventResult.Consumed none, { d with focus := Focus.Button (i - 1) })
          else
            (EventResult.Ignored, d)
        else
          (EventResult.Ignored, d)
      | res => (res, d)

/-- `Dialog::take_focus` (`dialog.rs` lines 202-211): buttons are preferred;
with no buttons the focus field is set to `Content` and the content's answer
is returned. -/
def Dialog.take_focus (d : Dialog) : Bool × Dialog :=
  if !d.buttons.isEmpty then
    (true, { d with focus := Focus.Button 0 })
  else
    (d.content.take_focus, { d with focus := Focus.Content })

/-- States reachable from a freshly constructed dialog (initial focus
`Content`; the builder calls never touch the focus field) by any sequence of
`on_key_event` and `take_focus` calls. -/
inductive Reachable : Dialog → Prop where
  | init (d : Dialog) : d.focus = Focus.Content → Reachable d
  | key (d : Dialog) (ch : Int) : Reachable d → Reachable (d.on_key_event ch).2
  | tf (d : Dialog) : Reachable d → Reachable (d.take_focus).2

/-- The focus invariant: a `Button i` focus only ever names an existing
button. -/
def FocusInv (d : Dialog) : Prop :=
  ∀ i, d.focus = Focus.Button i → i < d.buttons.length

/-! Structural lemmas about the focus machine. -/

theorem on_key_event_buttons (d : Dialog) (ch : Int) :
    (d.on_key_event ch).2.buttons = d.buttons := by
  unfold Dialog.on_key_event
  repeat' split
  all_goals rfl

theorem take_focus_buttons (d : Dialog) :
    (d.take_focus).2.buttons = d.buttons := by
  unfold Dialog.take_focus
  split
  all_goals rfl

theorem on_key_event_content_eq (d : Dialog) (ch : Int) (hf : d.focus = Focus.Content) :
    d.on_key_event ch =
      match d.content.on_key_event ch with
      | EventResult.Ignored =>
        if d.buttons.isEmpty then
          (EventResult.Ignored, d)
        else if ch = KEY_DOWN then
          (EventResult.Consumed none, { d with focus := Focus.Button 0 })
        else
          (EventResult.Ignored, d)
      | res => (res, d) := by
  unfold Dialog.on_key_event
  rw [hf]

theorem on_key_event_button_eq (d : Dialog) (i : Nat) (b : ButtonView) (ch : Int)
    (hf : d.focus = Focus.Button i) (hb : d.buttons[i]? = some b) :
    d.on_key_event ch =
      match b.on_key_event ch with
      | EventResult.Ignored =>
        if ch = KEY_UP then
          if d.content.take_focus then
            (EventResult.Consumed none, { d with focus := Focus.Content })
          else
            (EventResult.Ignored, d)
        else if ch = KEY_RIGHT then
          if i + 1 < d.buttons.length then
            (EventResult.Consumed none, { d with focus := Focus.Button (i + 1) })
          else
            (EventResult.Ignored, d)
        else if ch = KEY_LEFT then
          if i > 0 then
            (EventResult.Consumed none, { d with focus := Focus.Button (i - 1) })
          else
            (EventResult.Ignored, d)
        else
          (EventResult.Ignored, d)
      | res => (res, d) := by
  unfold Dialog.on_key_event
  simp only [hf, hb]

theorem on_key_event_button_none_eq (d : Dialog) (i : Nat) (ch : Int)
    (hf : d.focus = Focus.Button i) (hb : d.buttons[i]? = none) :
    d.on_key_event ch = (EventResult.Ignored, d) := by
  unfold Dialog.on_key_event
  simp only [hf, hb]

/-! Preservation of the focus invariant. -/

theorem focusInv_of_content (d : Dialog) (h : d.focus = Focus.Content) : FocusInv d := by
  intro i hi
  rw [h] at hi
  exact absurd hi (by simp)

theorem focusInv_take_focus (d : Dialog) : FocusInv (d.take_focus).2 := by
  intro i hi
  rw [take_focus_buttons]
  unfold Dialog.take_focus at hi
  split at hi
  case isTrue hne =>
    simp only [Focus.Button.injEq] at hi
    have hlen : d.buttons ≠ [] := by
      simpa using hne
    have := List.length_pos.mpr hlen
    omega
  case isFalse hne =>
    simp at hi

theorem focusInv_key (d : Dialog) (ch : Int) (h : FocusInv d) :
    FocusInv (d.on_key_event ch).2 := by
  intro j hj
  rw [on_key_event_buttons]
  rcases hf : d.focus with _ | i
  · rw [on_key_event_content_eq d ch hf] at hj
    rcases hres : d.content.on_key_event ch with cb | _
    · rw [hres] at hj
      simp only at hj
      rw [hf] at hj
      exact absurd hj (by simp)
    · rw [hres] at hj
      simp only at hj
      by_cases hemp : d.buttons.isEmpty
      · rw [if_pos hemp] at hj
        simp only at hj
        rw [hf] at hj
        exact absurd hj (by simp)
      · rw [if_neg hemp] at hj
        have hlen : 0 < d.buttons.length := by
          have : d.buttons ≠ [] := by simpa using hemp
          exact List.length_pos.mpr this
        by_cases hch : ch = KEY_DOWN
        · rw [if_pos hch] at hj
          simp only [Focus.Button.injEq] at hj
          omega
        · rw [if_neg hch] at hj
          simp only at hj
          rw [hf] at hj
          exact absurd hj (by simp)
  · have hi : i < d.buttons.length := h i hf
    have hb : d.buttons[i]? = some d.buttons[i] := List.getElem?_eq_getElem hi
    rw [on_key_event_button_eq d i d.buttons[i] ch hf hb] at hj
    rcases hres : (d.buttons[i]).on_key_event ch with cb | _
    · rw [hres] at hj
      simp only at hj
      rw [hf] at hj
      simp only [Focus.Button.injEq] at hj
      omega
    · rw [hres] at hj
      simp only at hj
      by_cases hup : ch = KEY_UP
      · rw [if_pos hup] at hj
        by_cases htf : d.content.take_focus
        · rw [if_pos htf] at hj
          simp only at hj
          exact absurd hj (by simp)
        · rw [if_neg htf] at hj
          simp only at hj
          rw [hf] at hj
          simp only [Focus.Button.injEq] at hj
          omega
      · rw [if_neg hup] at hj
        by_cases hrt : ch = KEY_RIGHT
        · rw [if_pos hrt] at hj
          by_cases hlt : i + 1 < d.buttons.length
          · rw [if_pos hlt] at hj
            simp only [Focus.Button.injEq] at hj
            omega
          · rw [if_neg hlt] at hj
            simp only at hj
            rw [hf] at hj
            simp only [Focus.Button.injEq] at hj
            omega
        · rw [if_neg hrt] at hj
          by_cases hlf : ch = KEY_LEFT
          · rw [if_pos hlf] at hj
            by_cases hpos : i > 0
            · rw [if_pos hpos] at hj
              simp only [Focus.Button.injEq] at hj
              omega
            · rw [if_neg hpos] at hj
              simp only at hj
              rw [hf] at hj
              simp only [Focus.Button.injEq] at hj
              omega
          · rw [if_neg hlf] at hj
            simp only at hj
            rw [hf] at hj
            simp only [Focus.Button.injEq] at hj
            omega

theorem reachable_focusInv (d : Dialog) (h : Reachable d) : FocusInv d := by
  induction h with
  | init d hd => exact focusInv_of_content d hd
  | key d ch _ ih => exact focusInv_key d ch ih
  | tf d _ _ => exact focusInv_take_focus d

/-! Concrete widgets used to exercise the theorems on closed inputs. -/

/-- A content widget that needs no space, refuses focus and ignores every
key. -/
def inertContent : ContentView :=
  { get_min_size := fun _ => ⟨0, 0⟩
    take_focus := false
    on_key_event := fun _ => EventResult.Ignored }

/-- A content widget that accepts focus and ignores every key. -/
def focusableContent : ContentView :=
  { get_min_size := fun _ => ⟨0, 0⟩
    take_focus := true
    on_key_event := fun _ => EventResult.Ignored }

/-- A dialog with one button, as built by `Dialog::new(...).button(...)`. -/
def sampleDialog : Dialog := (Dialog.new inertContent).button ⟨⟨4, 1⟩⟩

/-- A dialog with no buttons over a focusable content. -/
def contentDialog : Dialog := Dialog.new focusableContent

/-- Claim C1: for every sequence of `on_key_event` and `take_focus` calls
starting from a freshly constructed dialog (initial focus `Content`),
whenever the focus state is `Button i`, the index `i` is strictly below the
number of buttons; an out-of-range focus state is unreachable. -/
theorem C1_focus_index_invariant (d : Dialog) (h : Reachable d) (i : Nat)
    (hf : d.focus = Focus.Button i) : i < d.buttons.length :=
  reachable_focusInv d h i hf

theorem C1_focus_index_invariant_witness :
    0 < ((sampleDialog.take_focus).2).buttons.length :=
  C1_focus_index_invariant (sampleDialog.take_focus).2
    (Reachable.tf sampleDialog (Reachable.init sampleDialog rfl)) 0 rfl

/-- Claim C4: a dialog with at least one button always grants `take_focus`
and moves the focus to `Button 0`, whatever the content answers. -/
theorem C4_take_focus_with_buttons (d : Dialog) (h : d.buttons ≠ []) :
    (d.take_focus).1 = true ∧ (d.take_focus).2.focus = Focus.Button 0 := by
  unfold Dialog.take_focus
  rw [if_pos (by simpa using h)]
  exact ⟨rfl, rfl⟩

theorem C4_take_focus_with_buttons_witness :
    (sampleDialog.take_focus).1 = true ∧
      (sampleDialog.take_focus).2.focus = Focus.Button 0 :=
  C4_take_focus_with_buttons sampleDialog (by decide)

/-- Claim C5: a dialog with no buttons answers `take_focus` exactly as its
content does, and the focus field is `Content` afterwards in both cases. -/
theorem C5_take_focus_no_buttons (d : Dialog) (h : d.buttons = []) :
    (d.take_focus).1 = d.content.take_focus ∧
      (d.take_focus).2.focus = Focus.Content := by
  unfold Dialog.take_focus
  rw [if_neg (by simp [h])]
  exact ⟨rfl, rfl⟩

theorem C5_take_focus_no_buttons_witness :
    (contentDialog.take_focus).1 = contentDialog.content.take_focus ∧
      (contentDialog.take_focus).2.focus = Focus.Content :=
  C5_take_focus_no_buttons contentDialog rfl

/-- Claim C6: with focus on the content, the key is forwarded to the content;
when the content ignores it, the key is the move-down key and a button
exists, focus moves to `Button 0` and the event is consumed; in every other
case the content's own result is returned and the dialog is unchanged. -/
theorem C6_content_key_routing (d : Dialog) (ch : Int) (hf : d.focus = Focus.Content) :
    if d.content.on_key_event ch = EventResult.Ignored ∧ ch = KEY_DOWN ∧ d.buttons ≠ [] then
      (d.on_key_event ch).1 = EventResult.Consumed none ∧
        (d.on_key_event ch).2.focus = Focus.Button 0
    else
      (d.on_key_event ch).1 = d.content.on_key_event ch ∧
        (d.on_key_event ch).2 = d := by
  rw [on_key_event_content_eq d ch hf]
  rcases hres : d.content.on_key_event ch with cb | _
  · rw [if_neg (by simp)]
    exact ⟨rfl, rfl⟩
  · by_cases hemp : d.buttons = []
    · rw [if_neg (by simp [hemp])]
      simp [hemp]
    · by_cases hch : ch = KEY_DOWN
      · rw [if_pos ⟨rfl, hch, hemp⟩]
        simp [show d.buttons.isEmpty = false by simp [hemp], hch]
      · rw [if_neg (by simp [hch])]
        simp [show d.buttons.isEmpty = false by simp [hemp], hch]

theorem C6_content_key_routing_witness :
    (sampleDialog.on_key_event KEY_DOWN).1 = EventResult.Consumed none ∧
      (sampleDialog.on_key_event KEY_DOWN).2.focus = Focus.Button 0 := by
  have h := C6_content_key_routing sampleDialog KEY_DOWN rfl
  rwa [if_pos ⟨rfl, rfl, by decide⟩] at h

/-- A button never consumes a movement key: its handler only reacts to its
own activation key. -/
theorem button_ignores_other_keys (b : ButtonView) (ch : Int) (h : ch ≠ KEY_ENTER) :
    b.on_key_event ch = EventResult.Ignored := by
  unfold ButtonView.on_key_event
  exact if_neg h

/-- Claim C7: from a (valid) `Button i` focus, a move-right key either is
ignored and leaves the dialog unchanged, when `i` is the last index, or
moves the focus to exactly `Button (i+1)` and is consumed. -/
theorem C7_move_right_monotone (d : Dialog) (i : Nat) (hf : d.focus = Focus.Button i)
    (hi : i < d.buttons.length) :
    if i + 1 < d.buttons.length then
      (d.on_key_event KEY_RIGHT).1 = EventResult.Consumed none ∧
        (d.on_key_event KEY_RIGHT).2.focus = Focus.Button (i + 1)
    else
      (d.on_key_event KEY_RIGHT).1 = EventResult.Ignored ∧
        (d.on_key_event KEY_RIGHT).2 = d := by
  have hb : d.buttons[i]? = some d.buttons[i] := List.getElem?_eq_getElem hi
  rw [on_key_event_button_eq d i d.buttons[i] KEY_RIGHT hf hb]
  rw [button_ignores_other_keys _ _ (by decide)]
  by_cases hlt : i + 1 < d.buttons.length
  · rw [if_pos hlt]
    simp [show ¬(KEY_RIGHT = KEY_UP) by decide, hlt]
  · rw [if_neg hlt]
    simp [show ¬(KEY_RIGHT = KEY_UP) by decide, hlt]

/-- A two-button dialog whose focus was moved onto the first button. -/
def twoButtonFocused : Dialog :=
  (((Dialog.new inertContent).button ⟨⟨4, 1⟩⟩).button ⟨⟨6, 1⟩⟩).take_focus.2

theorem C7_move_right_monotone_witness :
    (twoButtonFocused.on_key_event KEY_RIGHT).1 = EventResult.Consumed none ∧
      (twoButtonFocused.on_key_event KEY_RIGHT).2.focus = Focus.Button 1 := by
  have h := C7_move_right_monotone twoButtonFocused 0 rfl (by decide)
  rwa [if_pos (by decide)] at h

/-- Whenever `on_key_event` answers `Ignored`, the dialog is returned
unchanged. -/
theorem on_key_event_ignored_eq (d : Dialog) (ch : Int)
    (h : (d.on_key_event ch).1 = EventResult.Ignored) :
    (d.on_key_event ch).2 = d := by
  rcases hf : d.focus with _ | i
  · rw [on_key_event_content_eq d ch hf] at h ⊢
    rcases hres : d.content.on_key_event ch with cb | _
    · rfl
    · rw [hres] at h
      simp only at h ⊢
      by_cases hemp : d.buttons.isEmpty
      · rw [if_pos hemp]
      · rw [if_neg hemp] at h ⊢
        by_cases hch : ch = KEY_DOWN
        · rw [if_pos hch] at h
          exact absurd h (by simp)
        · rw [if_neg hch]
  · rcases hb : d.buttons[i]? with _ | b
    · rw [on_key_event_button_none_eq d i ch hf hb]
    · rw [on_key_event_button_eq d i b ch hf hb] at h ⊢
      rcases hres : b.on_key_event ch with cb | _
      · rfl
      · rw [hres] at h
        simp only at h ⊢
        by_cases hup : ch = KEY_UP
        · rw [if_pos hup] at h ⊢
          by_cases htf : d.content.take_focus
          · rw [if_pos htf] at h
            exact absurd h (by simp)
          · rw [if_neg htf]
        · rw [if_neg hup] at h ⊢
          by_cases hrt : ch = KEY_RIGHT
          · rw [if_pos hrt] at h ⊢
            by_cases hlt : i + 1 < d.buttons.length
            · rw [if_pos hlt] at h
              exact absurd h (by simp)
            · rw [if_neg hlt]
          · rw [if_neg hrt] at h ⊢
            by_cases hlf : ch = KEY_LEFT
            · rw [if_pos hlf] at h ⊢
              by_cases hpos : i > 0
              · rw [if_pos hpos] at h
                exact absurd h (by simp)
              · rw [if_neg hpos]
            · rw [if_neg hlf]

/-- Claim C10: whenever `on_key_event` answers `Ignored`, the focus field is
left exactly as it was before the call. -/
theorem C10_ignored_preserves_focus (d : Dialog) (ch : Int)
    (h : (d.on_key_event ch).1 = EventResult.Ignored) :
    (d.on_key_event ch).2.focus = d.focus := by
  rw [on_key_event_ignored_eq d ch h]

theorem C10_ignored_preserves_focus_witness :
    (sampleDialog.on_key_event KEY_LEFT).2.focus = sampleDialog.focus :=
  C10_ignored_preserves_focus sampleDialog KEY_LEFT (by decide)
theorem buttonRowFold_x (req : SizeRequest) (l : List ButtonView) (a : Vec2) :
    (l.foldl
        (fun acc b =>
          let s := b.get_min_size req
          (⟨acc.x + s.x + 1, max acc.y (s.y + 1)⟩ : Vec2))
        a).x
      = a.x + (l.map (fun b => (b.get_min_size req).x + 1)).sum := by
  induction l generalizing a with
  | nil => simp
  | cons b bs ih =>
    simp only [List.foldl_cons, List.map_cons, List.sum_cons, ih]
    omega

theorem buttonRowFold_y (req : SizeRequest) (l : List ButtonView) (a : Vec2) :
    (l.foldl
        (fun acc b =>
          let s := b.get_min_size req
          (⟨acc.x + s.x + 1, max acc.y (s.y + 1)⟩ : Vec2))
        a).y
      = max a.y ((l.map (fun b => (b.get_min_size req).y + 1)).foldr max 0) := by
  induction l generalizing a with
  | nil => simp
  | cons b bs ih =>
    simp only [List.foldl_cons, List.map_cons, List.foldr_cons, ih]
    omega

theorem buttonsMinSize_x (l : List ButtonView) (req : SizeRequest) :
    (buttonsMinSize l req).x = (l.map (fun b => (b.get_min_size req).x + 1)).sum := by
  unfold buttonsMinSize
  rw [buttonRowFold_x]
  simp

theorem buttonsMinSize_y (l : List ButtonView) (req : SizeRequest) :
    (buttonsMinSize l req).y = (l.map (fun b => (b.get_min_size req).y + 1)).foldr max 0 := by
  unfold buttonsMinSize
  rw [buttonRowFold_y]
  simp

theorem foldl_max_eq (g : ButtonView → Nat) (l : List ButtonView) (a : Nat) :
    l.foldl (fun h b => max h (g b)) a = max a ((l.map g).foldr max 0) := by
  induction l generalizing a with
  | nil => simp
  | cons b bs ih =>
    simp only [List.foldl_cons, List.map_cons, List.foldr_cons, ih]
    omega

theorem foldr_max_init (l : List Nat) (a : Nat) :
    l.foldr max a = max (l.foldr max 0) a := by
  induction l with
  | nil => simp
  | cons x xs ih =>
    simp only [List.foldr_cons, ih]
    omega

theorem foldr_max_reverse (l : List Nat) :
    l.reverse.foldr max 0 = l.foldr max 0 := by
  induction l with
  | nil => rfl
  | cons x xs ih =>
    rw [List.reverse_cons, List.foldr_append]
    simp only [List.foldr_cons, List.foldr_nil]
    rw [foldr_max_init, ih]
    omega

theorem buttonsLayoutHeight_eq (l : List ButtonView) (req : SizeRequest) :
    buttonsLayoutHeight l req
      = (l.map (fun b => (b.get_min_size req).y + 1)).foldr max 0 := by
  unfold buttonsLayoutHeight
  rw [foldl_max_eq]
  rw [List.map_reverse, foldr_max_reverse]
  omega

theorem buttonsLayoutHeight_eq_minSize (l : List ButtonView) (req1 req2 : SizeRequest) :
    buttonsLayoutHeight l req1 = (buttonsMinSize l req2).y := by
  rw [buttonsLayoutHeight_eq, buttonsMinSize_y]
  rfl

theorem foldr_max_succ (l : List Nat) (h : l ≠ []) :
    (l.map (fun n => n + 1)).foldr max 0 = l.foldr max 0 + 1 := by
  induction l with
  | nil => exact absurd rfl h
  | cons x xs ih =>
    cases xs with
    | nil => simp
    | cons y ys =>
      have h2 := ih (by simp)
      simp only [List.map_cons, List.foldr_cons] at h2 ⊢
      omega
/-- Claim C3: for a non-empty button row, the minimum width accumulated in
`get_min_size` is the sum over the buttons of minimum width plus one
(trailing separator included), and the minimum height is the tallest
button's minimum height plus one. -/
theorem C3_button_row_min (buttons : List ButtonView) (req : SizeRequest)
    (h : buttons ≠ []) :
    (buttonsMinSize buttons req).x
        = (buttons.map (fun b => (b.get_min_size req).x + 1)).sum ∧
      (buttonsMinSize buttons req).y
        = (buttons.map (fun b => (b.get_min_size req).y)).foldr max 0 + 1 := by
  refine ⟨buttonsMinSize_x buttons req, ?_⟩
  rw [buttonsMinSize_y]
  have hmap : buttons.map (fun b => (b.get_min_size req).y + 1)
      = (buttons.map (fun b => (b.get_min_size req).y)).map (fun n => n + 1) := by
    rw [List.map_map]
    rfl
  rw [hmap, foldr_max_succ]
  simpa using h

/-- The two buttons of the §8 sizing scenario, of widths 4 and 6. -/
def demoButtons : List ButtonView := [⟨⟨4, 1⟩⟩, ⟨⟨6, 1⟩⟩]

/-- The unbounded size request. -/
def reqUnbounded : SizeRequest := ⟨DimensionRequest.Unknown, DimensionRequest.Unknown⟩

theorem C3_button_row_min_witness :
    (buttonsMinSize demoButtons reqUnbounded).x
        = (demoButtons.map (fun b => (b.get_min_size reqUnbounded).x + 1)).sum ∧
      (buttonsMinSize demoButtons reqUnbounded).y
        = (demoButtons.map (fun b => (b.get_min_size reqUnbounded).y)).foldr max 0 + 1 :=
  C3_button_row_min demoButtons reqUnbounded (by decide)
/-- The two-button scenario dialog of §8: empty content minimum, no title,
buttons of widths 4 and 6, default padding and borders. -/
def twoButtonDialog : Dialog :=
  ((Dialog.new inertContent).button ⟨⟨4, 1⟩⟩).button ⟨⟨6, 1⟩⟩

/-- The minimum size as the specification words it (§4.3): the content is
measured under the request reduced by padding plus borders, the button row at
the unreduced request (sum of widths plus one separator each, tallest height
plus one blank line), the inner size takes the maximum width and the summed
height, padding and borders are added back, and a non-empty title raises the
width to at least `title_length + 6`. -/
def specMinSize (d : Dialog) (req : SizeRequest) : Vec2 :=
  let content_size :=
    d.content.get_min_size (req.reduced (d.padding.combined + d.borders.combined))
  let row_w := (d.buttons.map (fun b => (b.get_min_size req).x + 1)).sum
  let row_h := (d.buttons.map (fun b => (b.get_min_size req).y + 1)).foldr max 0
  let w := max content_size.x row_w + d.padding.combined.x + d.borders.combined.x
  let h := content_size.y + row_h + d.padding.combined.y + d.borders.combined.y
  if d.title.length > 0 then ⟨max w (d.title.length + 6), h⟩ else ⟨w, h⟩

/-- Claim C2: `get_min_size` computes exactly the §4.3 formula; in
particular the two-button no-title scenario has overall minimum width 16 and
a ten-character title forces a minimum width of at least 16 whatever the
content asks for. -/
theorem C2_get_min_size_formula (d : Dialog) (req : SizeRequest) :
    d.get_min_size req = specMinSize d req ∧
      (∀ r : SizeRequest, (twoButtonDialog.get_min_size r).x = 16) ∧
      (∀ (c : ContentView) (r : SizeRequest),
        16 ≤ (((Dialog.new c).with_title "ABCDEFGHIJ").get_min_size r).x) := by
  refine ⟨?_, ?_, ?_⟩
  · have hx := buttonsMinSize_x d.buttons req
    have hy := buttonsMinSize_y d.buttons req
    unfold Dialog.get_min_size specMinSize
    simp only [show ∀ a b : Vec2, a + b = ⟨a.x + b.x, a.y + b.y⟩ from fun a b => rfl,
      hx, hy]
  · intro r
    rfl
  · intro c r
    have ht : (((Dialog.new c).with_title "ABCDEFGHIJ").title).length = 10 := rfl
    unfold Dialog.get_min_size
    simp only [ht]
    rw [if_pos (by omega)]
    simp only [Vec2.add_x]
    omega
/-- Claim C8: for every offered size, including sizes below the declared
minimum, the layout subtractions are clamped at zero: the content is never
handed a size exceeding the offer on either axis, and when the offer is
smaller than the combined margins the corresponding component is exactly
zero rather than an underflowed value. -/
theorem C8_layout_no_underflow (d : Dialog) (size : Vec2) :
    ((d.layout size).1).x ≤ size.x ∧ ((d.layout size).1).y ≤ size.y ∧
      (size.x ≤ (d.borders.combined + d.padding.combined).x →
        ((d.layout size).1).x = 0) ∧
      (size.y ≤ (d.borders.combined + d.padding.combined).y →
        ((d.layout size).1).y = 0) := by
  unfold Dialog.layout
  simp only [Vec2.sub_x, Vec2.sub_y]
  refine ⟨?_, ?_, ?_, ?_⟩ <;> omega

theorem C8_layout_no_underflow_witness :
    ((sampleDialog.layout ⟨1, 1⟩).1).x ≤ 1 ∧ ((sampleDialog.layout ⟨1, 1⟩).1).y ≤ 1 ∧
      ((sampleDialog.layout ⟨1, 1⟩).1).x = 0 ∧ ((sampleDialog.layout ⟨1, 1⟩).1).y = 0 := by
  have h := C8_layout_no_underflow sampleDialog ⟨1, 1⟩
  exact ⟨h.1, h.2.1, h.2.2.1 (by decide), h.2.2.2 (by decide)⟩

/-- Claim C9: laying the dialog out at exactly its declared minimum size
(under the unbounded request) hands every button its own declared minimum
size and hands the content at least its declared minimum, on both axes,
under the reduced request used inside `get_min_size`. -/
theorem C9_layout_roundtrip (d : Dialog) :
    (d.layout (d.get_min_size reqUnbounded)).2 = d.buttons.map (fun b => b.min_size) ∧
      (d.content.get_min_size
            (reqUnbounded.reduced (d.padding.combined + d.borders.combined))).x
          ≤ ((d.layout (d.get_min_size reqUnbounded)).1).x ∧
      (d.content.get_min_size
            (reqUnbounded.reduced (d.padding.combined + d.borders.combined))).y
          ≤ ((d.layout (d.get_min_size reqUnbounded)).1).y := by
  refine ⟨rfl, ?_, ?_⟩
  all_goals
    unfold Dialog.layout Dialog.get_min_size
    dsimp only
    rw [buttonsLayoutHeight_eq_minSize d.buttons _ reqUnbounded]
    simp only [Vec2.sub_x, Vec2.sub_y]
    by_cases ht : d.title.length > 0
  · rw [if_pos ht]
    simp only [Vec2.add_x]
    omega
  · rw [if_neg ht]
    simp only [Vec2.add_x]
    omega
  · rw [if_pos ht]
    simp only [Vec2.add_y]
    omega
  · rw [if_neg ht]
    simp only [Vec2.add_y]
    omega
